import Mathlib

/-!
# WebTorrent tracker client and possum consecutive-chunk reader

A shallow embedding of `webtorrent/tracker_client.go` and of
`storage/possum/possum-provider.go`.

Conventions of the embedding.

* The mutable fields of `TrackerClient` that the mutex guards form the state; every
  operation is a function from the state (and from the results of the external
  calls it makes) to the new state, the returned error and the list of calls made
  on external collaborators, in program order (`Effect`).
* Results of external library calls (random source, WebRTC negotiation, JSON
  decoding, websocket transport) are inputs of the operation that makes the call.
  JSON encoding of an envelope cannot fail; its bytes are an input (`jsonMarshal`).
* A Go `map[string]outboundOffer` is an association list with pairwise distinct
  keys (`AList`); a `nil` map is `none`.
* `tc.cond.Wait()` is a suspension point: an operation that reaches it yields
  `waiting`; on wake-up the loop around it is re-entered on the state of that moment.
* `int64` values are integers wrapped into the signed 64 bit range by `int64`.
-/

/-- Wrap an integer into the range of a Go `int64` (two's complement). -/
def int64 (x : Int) : Int := (x + 2 ^ 63) % 2 ^ 64 - 2 ^ 63

namespace webtorrent

/-- Identity of a `wrappedPeerConnection` handle. -/
abbrev PeerConnection := Nat

/-- Identity of a `*webrtc.DataChannel`. -/
abbrev DataChannel := Nat

/-- Identity of a `*websocket.Conn`. -/
abbrev WsConn := Nat

/-- A `webrtc.SessionDescription`, an uninterpreted document. -/
abbrev SessionDescription := String

/-- A `[20]byte` content identifier. -/
abbrev Hash20 := List Nat

/-- The map key `offerIDBinary`, a Go `string`. -/
abbrev OfferID := String

/-- Bytes produced by `json.Marshal`. -/
abbrev Data := List Nat

/-- Go `error` values met in the client. -/
inductive Error where
  /-- an error value returned by an external library call -/
  | lib (code : Nat)
  /-- `fmt.Errorf("%T closed", tc)` -/
  | closed
  /-- `fmt.Errorf(msg + ": %w", cause)` -/
  | wrap (msg : String) (cause : Error)
deriving DecidableEq, Repr

structure TrackerClientStats where
  Dials : Int
  ConvertedInboundConns : Int
  ConvertedOutboundConns : Int
deriving DecidableEq, Repr

/-- An outstanding offer. -/
structure outboundOffer where
  originalOffer : SessionDescription
  peerConnection : PeerConnection
  dataChannel : DataChannel
  infoHash : Hash20
deriving DecidableEq, Repr

structure DataChannelContext where
  Local : SessionDescription
  Remote : SessionDescription
  OfferId : OfferID
  LocalOffered : Bool
  InfoHash : Hash20
deriving DecidableEq, Repr

/-- A non-nil `map[string]outboundOffer`. -/
abbrev OfferMap := AList (fun _ : OfferID => outboundOffer)

/-- The fields of `TrackerClient` guarded by `mu`. -/
structure TrackerClient where
  /-- `nil` is `none` -/
  outboundOffers : Option OfferMap
  /-- `nil` is `none` -/
  wsConn : Option WsConn
  closed : Bool
  stats : TrackerClientStats
deriving DecidableEq

/-- Calls on external collaborators, recorded in program order. -/
inductive Effect where
  /-- `metrics.Add(name, 1)` -/
  | metricsAdd (name : String)
  /-- `c.WriteMessage(websocket.TextMessage, data)` -/
  | wsWriteMessage (c : WsConn) (data : Data)
  /-- `c.Close()` on a websocket connection -/
  | wsClose (c : WsConn)
  /-- `tc.cond.Broadcast()` -/
  | condBroadcast
  /-- `pc.Close()` on a peer connection handle -/
  | pcClose (pc : PeerConnection)
  /-- `offer.setAnswer(answer, callback)` on the handle `pc` of the offer `offerId` -/
  | setAnswer (pc : PeerConnection) (answer : SessionDescription) (offerId : OfferID)
  /-- `go tc.Announce(tracker.None, infoHash)` -/
  | goAnnounce (infoHash : Hash20)
  /-- `tc.Logger...Printf(msg, ...)` -/
  | logPrintf (msg : String)
  /-- `time.AfterFunc(30*time.Second, ...)` closing `pc` -/
  | afterFunc (pc : PeerConnection)
  /-- `pc.OnDataChannel(...)` whose open callback reports `ctx` -/
  | onDataChannel (pc : PeerConnection) (ctx : DataChannelContext)
  /-- `timer.Stop()` of the timer armed for `pc` -/
  | timerStop (pc : PeerConnection)
  /-- `tc.OnConn(dc, ctx)` -/
  | onConn (ctx : DataChannelContext)
deriving DecidableEq, Repr

/-- How an operation that may wait on `tc.cond` ends. -/
inductive Outcome where
  /-- the operation returned `err`, leaving the state `tc` -/
  | returned (tc : TrackerClient) (err : Option Error) (effects : List Effect)
  /-- the operation is parked in `tc.cond.Wait()`; the state is untouched -/
  | waiting (effects : List Effect)
deriving DecidableEq

/-- How `writeMessage` ends. -/
inductive WriteResult where
  | returned (err : Option Error)
  | waiting
deriving DecidableEq, Repr

/-- The entries of the offer table; a nil map has none. -/
def TrackerClient.offers (tc : TrackerClient) : List (Sigma fun _ : OfferID => outboundOffer) :=
  match tc.outboundOffers with
  | none => []
  | some m => m.entries

/-- Reading `tc.outboundOffers[offerId]`; a nil map yields no entry. -/
def TrackerClient.lookupOffer (tc : TrackerClient) (offerId : OfferID) : Option outboundOffer :=
  match tc.outboundOffers with
  | none => none
  | some m => m.lookup offerId

/-- The value of `len(tc.outboundOffers)`. -/
def TrackerClient.numOffers (tc : TrackerClient) : Nat := tc.offers.length

/-- The connection handles held by the pending outbound offers. -/
def TrackerClient.handles (tc : TrackerClient) : List PeerConnection :=
  tc.offers.map fun e => e.2.peerConnection

/-- The peer connection handles closed by a list of effects, in order. -/
def closedHandles (effects : List Effect) : List PeerConnection :=
  effects.filterMap fun e =>
    match e with
    | .pcClose pc => some pc
    | _ => none

/-- The websocket connections closed by a list of effects, in order. -/
def closedConns (effects : List Effect) : List WsConn :=
  effects.filterMap fun e =>
    match e with
    | .wsClose c => some c
    | _ => none

/-- The transport writes attempted by a list of effects, in order. -/
def attemptedWrites (effects : List Effect) : List (WsConn × Data) :=
  effects.filterMap fun e =>
    match e with
    | .wsWriteMessage c d => some (c, d)
    | _ => none

/-- The method `TrackerClient.Close`. It always returns nil. -/
def Close (tc : TrackerClient) : TrackerClient × Option Error × List Effect :=
  let tc1 := { tc with closed := true }
  let e1 := match tc1.wsConn with
    | some c => [Effect.wsClose c]
    | none => []
  (tc1, none, e1 ++ [Effect.condBroadcast])

/-- The method `TrackerClient.closeUnusedOffers`. Go ranges over the map in an
unspecified order; the entries are visited here in the order of the list. -/
def closeUnusedOffers (tc : TrackerClient) : TrackerClient × List Effect :=
  ({ tc with outboundOffers := none },
    tc.offers.map fun offer => Effect.pcClose offer.2.peerConnection)

/-- The method `TrackerClient.writeMessage`, up to its return or its first
`tc.cond.Wait()`. `wr` is what `tc.wsConn.WriteMessage` returns if it is called. -/
def writeMessage (tc : TrackerClient) (data : Data) (wr : Option Error) :
    WriteResult × List Effect :=
  match tc.wsConn with
  | none => if tc.closed then (.returned (some .closed), []) else (.waiting, [])
  | some c => (.returned wr, [Effect.wsWriteMessage c data])

/-- The call `json.Marshal` on an announce envelope whose encoding is `data`. The
envelopes of this client (`AnnounceRequest`, `AnnounceResponse`) hold integers,
strings and session descriptions only, which the encoder always accepts: the result
is never an error. -/
def jsonMarshal (data : Data) : Except Error Data := .ok data

/-- The method `TrackerClient.Announce`.
`randRead` is the result of `rand.Read` passed through `binaryToJsonString`,
`offer` the result of `newOffer()`, `data` the encoding of `req` and
`wr` the result of the transport write. The request `req` is built from pure data
(the event, the accounting fields, the peer id, the offer) and only feeds
`json.Marshal`, so the event is not a parameter. -/
def Announce (tc : TrackerClient) (infoHash : Hash20) (randRead : Except Error OfferID)
    (offer : Except Error (PeerConnection × DataChannel × SessionDescription))
    (data : Data) (wr : Option Error) : Outcome :=
  let e0 := [Effect.metricsAdd "outbound announces"]
  match randRead with
  | .error err => .returned tc (some (.wrap "generating offer_id bytes" err)) e0
  | .ok offerIDBinary =>
    match offer with
    | .error err => .returned tc (some (.wrap "creating offer" err)) e0
    | .ok (pc, dc, offer) =>
      match jsonMarshal data with
      | .error err => .returned tc (some (.wrap "marshalling request" err)) e0
      | .ok data =>
        match writeMessage tc data wr with
        | (.waiting, e1) => .waiting (e0 ++ e1)
        | (.returned (some err), e1) =>
          .returned tc (some (.wrap "write AnnounceRequest" err)) (e0 ++ e1 ++ [Effect.pcClose pc])
        | (.returned none, e1) =>
          let m : OfferMap := match tc.outboundOffers with
            | none => ∅
            | some m => m
          .returned
            { tc with outboundOffers := some (m.insert offerIDBinary
                { peerConnection := pc, dataChannel := dc, originalOffer := offer,
                  infoHash := infoHash }) }
            none (e0 ++ e1)

/-- The method `TrackerClient.handleOffer`.
`answering` is the result of `newAnsweringPeerConnection(offer)`, `data` the
encoding of `response` and `wr` the result of the transport write. The
response is built from pure data (peer ids, answer, offer id) and only feeds
`json.Marshal`, so the remote peer id is not a parameter. -/
def handleOffer (tc : TrackerClient) (offer : SessionDescription) (offerId : OfferID)
    (infoHash : Hash20) (answering : Except Error (PeerConnection × SessionDescription))
    (data : Data) (wr : Option Error) : Outcome :=
  match answering with
  | .error err => .returned tc (some (.wrap "write AnnounceResponse" err)) []
  | .ok (peerConnection, answer) =>
    match jsonMarshal data with
    | .error err =>
      .returned tc (some (.wrap "marshalling response" err)) [Effect.pcClose peerConnection]
    | .ok data =>
      match writeMessage tc data wr with
      | (.waiting, e1) => .waiting e1
      | (.returned (some err), e1) =>
        .returned tc (some (.wrap "writing response" err)) (e1 ++ [Effect.pcClose peerConnection])
      | (.returned none, e1) =>
        .returned tc none (e1 ++ [Effect.afterFunc peerConnection,
          Effect.onDataChannel peerConnection
            { Local := answer, Remote := offer, OfferId := offerId, LocalOffered := false,
              InfoHash := infoHash }])

/-- The function given to `time.AfterFunc` in `handleOffer`. -/
def answeringTimedOut (peerConnection : PeerConnection) : List Effect :=
  [Effect.metricsAdd "answering peer connections timed out", Effect.pcClose peerConnection]

/-- The data channel open callback registered in `handleOffer`. -/
def answeringOpened (tc : TrackerClient) (peerConnection : PeerConnection)
    (ctx : DataChannelContext) : TrackerClient × List Effect :=
  ({ tc with stats := { tc.stats with
      ConvertedInboundConns := int64 (tc.stats.ConvertedInboundConns + 1) } },
    [Effect.timerStop peerConnection,
     Effect.metricsAdd "answering peer connection conversions", Effect.onConn ctx])

/-- The callback given to `setAnswer` in `handleAnswer`. -/
def offerAnswered (tc : TrackerClient) (ctx : DataChannelContext) : TrackerClient × List Effect :=
  ({ tc with stats := { tc.stats with
      ConvertedOutboundConns := int64 (tc.stats.ConvertedOutboundConns + 1) } },
    [Effect.metricsAdd "outbound offers answered with datachannel", Effect.onConn ctx])

/-- The method `TrackerClient.handleAnswer`. `setAnswerErr` is what
`offer.setAnswer` returns if it is called. -/
def handleAnswer (tc : TrackerClient) (offerId : OfferID) (answer : SessionDescription)
    (setAnswerErr : Option Error) : TrackerClient × List Effect :=
  match tc.lookupOffer offerId with
  | none => (tc, [Effect.logPrintf "could not find offer for id %q"])
  | some offer =>
    let e0 := [Effect.metricsAdd "outbound offers answered",
      Effect.setAnswer offer.peerConnection answer offerId]
    match setAnswerErr with
    | some _ => (tc, e0 ++ [Effect.logPrintf "error using outbound offer answer: %v"])
    | none =>
      ({ tc with outboundOffers := tc.outboundOffers.map fun m => m.erase offerId },
        e0 ++ [Effect.goAnnounce offer.infoHash])

/-- A decoded `AnnounceResponse` envelope, with the fields the read loop uses. -/
structure AnnounceResponse where
  Offer : Option SessionDescription
  Answer : Option SessionDescription
  OfferID : OfferID
  InfoHash : String
  PeerID : String
deriving DecidableEq, Repr

/-- One inbound frame together with the results of the external calls made while
it is handled. -/
structure Frame where
  /-- result of `json.Unmarshal(message, &ar)` -/
  message : Except Error AnnounceResponse
  /-- result of `jsonStringToInfoHash(ar.InfoHash)` -/
  ih : Except Error Hash20
  /-- result of `newAnsweringPeerConnection` -/
  answering : Except Error (PeerConnection × SessionDescription)
  /-- encoding of the response that `handleOffer` sends -/
  data : Data
  /-- result of the transport write -/
  wr : Option Error
  /-- result of `offer.setAnswer` -/
  setAnswerErr : Option Error

/-- Put effects that happened earlier in front of an outcome. -/
def Outcome.after (e : List Effect) : Outcome → Outcome
  | .returned tc err e1 => .returned tc err (e ++ e1)
  | .waiting e1 => .waiting (e ++ e1)

/-- The method `TrackerClient.trackerReadLoop` on the frames read before
`ReadMessage` fails with `readErr`. -/
def trackerReadLoop : List Frame → TrackerClient → Error → Outcome
  | [], tc, readErr => .returned tc (some (.wrap "read message error" readErr)) []
  | f :: fs, tc, readErr =>
    match f.message with
    | .error _ =>
      (trackerReadLoop fs tc readErr).after
        [Effect.logPrintf "error unmarshalling announce response: %v"]
    | .ok ar =>
      match ar.Offer, ar.Answer with
      | some offer, _ =>
        match f.ih with
        | .error _ =>
          (trackerReadLoop fs tc readErr).after
            [Effect.logPrintf "error decoding info_hash in offer: %v"]
        | .ok ih =>
          match handleOffer tc offer ar.OfferID ih f.answering f.data f.wr with
          | .waiting e => .waiting e
          | .returned tc1 _ e => (trackerReadLoop fs tc1 readErr).after e
      | none, some answer =>
        let r := handleAnswer tc ar.OfferID answer f.setAnswerErr
        (trackerReadLoop fs r.1 readErr).after r.2
      | none, none => trackerReadLoop fs tc readErr

/-- The disconnect cleanup of `doWebsocket`: the critical section that follows
the return of the read loop, on the dialed connection `c`. -/
def disconnectCleanup (tc : TrackerClient) (c : WsConn) : TrackerClient × List Effect :=
  let r := closeUnusedOffers tc
  (r.1, r.2 ++ [Effect.wsClose c])

/-- The method `TrackerClient.doWebsocket`. `dial` is the result of
`websocket.DefaultDialer.Dial`; the last effect is the deferred `c.Close()`. -/
def doWebsocket (tc : TrackerClient) (dial : Except Error WsConn) (frames : List Frame)
    (readErr : Error) : Outcome :=
  let e0 := [Effect.metricsAdd "websocket dials"]
  let tc1 := { tc with stats := { tc.stats with Dials := int64 (tc.stats.Dials + 1) } }
  match dial with
  | .error err => .returned tc1 (some (.wrap "dialing tracker" err)) e0
  | .ok c =>
    let e1 := e0 ++ [Effect.logPrintf "dialed tracker %q", Effect.condBroadcast]
    match trackerReadLoop frames { tc1 with wsConn := some c } readErr with
    | .waiting e => .waiting (e1 ++ e)
    | .returned tc2 err e =>
      let r := disconnectCleanup tc2 c
      .returned r.1 err (e1 ++ e ++ r.2 ++ [Effect.wsClose c])

/-- An offer used in the examples. -/
def offer7 : outboundOffer :=
  { originalOffer := "offer-sdp", peerConnection := 7, dataChannel := 70, infoHash := [1, 2, 3] }

/-- A connected, open client with one pending offer under the key `a`. -/
def connectedClient : TrackerClient :=
  { outboundOffers := some (AList.insert "a" offer7 ∅), wsConn := some 1, closed := false,
    stats := { Dials := 1, ConvertedInboundConns := 0, ConvertedOutboundConns := 0 } }

/-- A connected, open client with a nil offer table. -/
def freshClient : TrackerClient :=
  { outboundOffers := none, wsConn := some 1, closed := false,
    stats := { Dials := 1, ConvertedInboundConns := 0, ConvertedOutboundConns := 0 } }

/-- A client that never had a connection and has been closed. -/
def closedUnconnectedClient : TrackerClient :=
  { outboundOffers := none, wsConn := none, closed := true,
    stats := { Dials := 0, ConvertedInboundConns := 0, ConvertedOutboundConns := 0 } }

/-! ## Facts about the offer table -/

theorem length_entries_insert (m : OfferMap) (k : OfferID) (v : outboundOffer) :
    (m.insert k v).entries.length = if k ∈ m then m.entries.length else m.entries.length + 1 := by
  have hk : (m.insert k v).keys.length = (m.insert k v).entries.length := by
    simp [AList.keys, List.keys]
  have hm : m.keys.length = m.entries.length := by simp [AList.keys, List.keys]
  rw [← hk, AList.keys_insert]
  by_cases h : k ∈ m
  · have h1 : k ∈ m.keys := AList.mem_keys.mp h
    simp only [h, if_true, List.length_cons, List.length_erase_of_mem h1]
    have : 0 < m.keys.length := List.length_pos_of_mem h1
    omega
  · have h1 : k ∉ m.keys := fun hh => h (AList.mem_keys.mpr hh)
    simp [h, List.erase_of_not_mem h1, hm]

theorem length_entries_erase (m : OfferMap) (k : OfferID) (h : k ∈ m) :
    (m.erase k).entries.length + 1 = m.entries.length := by
  have hk : (m.erase k).keys.length = (m.erase k).entries.length := by
    simp [AList.keys, List.keys]
  have hm : m.keys.length = m.entries.length := by simp [AList.keys, List.keys]
  have h1 : k ∈ m.keys := AList.mem_keys.mp h
  rw [← hk, AList.keys_erase, List.length_erase_of_mem h1, ← hm]
  have : 0 < m.keys.length := List.length_pos_of_mem h1
  omega

/-! ## Announce -/

/-- C1 (counterexample): Announce draws the identifier `a`, which is already the key of a
pending offer; it returns without error, the table still holds one entry, and the
identifier was a key before the call. -/
theorem Announce_colliding_id_counterexample :
    ∃ tc' eff,
      Announce connectedClient [9] (.ok "a") (.ok (8, 80, "new-sdp")) [0] none
        = .returned tc' none eff
      ∧ tc'.numOffers = connectedClient.numOffers
      ∧ connectedClient.lookupOffer "a" = some offer7 := by
  refine ⟨_, _, rfl, ?_, ?_⟩
  · decide
  · decide

/-- The table that `Announce` writes into: the current map, or a fresh one made
when the field is nil. -/
def TrackerClient.offerMap (tc : TrackerClient) : OfferMap :=
  match tc.outboundOffers with
  | none => ∅
  | some m => m

theorem offerMap_entries (tc : TrackerClient) : tc.offerMap.entries = tc.offers := by
  unfold TrackerClient.offerMap TrackerClient.offers
  cases tc.outboundOffers <;> rfl

theorem offerMap_lookup (tc : TrackerClient) (k : OfferID) :
    tc.offerMap.lookup k = tc.lookupOffer k := by
  unfold TrackerClient.offerMap TrackerClient.lookupOffer
  cases tc.outboundOffers <;> simp

/-- What a call of `Announce` that returns nil has done. -/
theorem Announce_returned_nil (tc : TrackerClient) (infoHash : Hash20)
    (randRead : Except Error OfferID)
    (offerRes : Except Error (PeerConnection × DataChannel × SessionDescription))
    (data : Data) (wr : Option Error) (tc' : TrackerClient) (eff : List Effect)
    (h : Announce tc infoHash randRead offerRes data wr = .returned tc' none eff) :
    ∃ offerId pc dc offer c,
      randRead = .ok offerId ∧ offerRes = .ok (pc, dc, offer)
      ∧ tc.wsConn = some c ∧ wr = none
      ∧ tc' = { tc with outboundOffers := some (tc.offerMap.insert offerId
          { peerConnection := pc, dataChannel := dc, originalOffer := offer,
            infoHash := infoHash }) }
      ∧ eff = [Effect.metricsAdd "outbound announces", Effect.wsWriteMessage c data] := by
  unfold Announce at h
  rcases randRead with e | offerId
  · simp at h
  rcases offerRes with e | ⟨pc, dc, offer⟩
  · simp at h
  refine ⟨offerId, pc, dc, offer, ?_⟩
  unfold jsonMarshal writeMessage at h
  cases hc : tc.wsConn with
  | none =>
    rw [hc] at h
    by_cases hcl : tc.closed = true <;> simp [hcl] at h
  | some c =>
    rw [hc] at h
    cases wr with
    | some err => simp at h
    | none =>
      simp only [Outcome.returned.injEq, true_and] at h
      refine ⟨c, rfl, rfl, rfl, rfl, ?_, ?_⟩
      · rw [← h.1]
        unfold TrackerClient.offerMap
        cases tc.outboundOffers <;> rfl
      · rw [← h.2]; rfl

/-- C1 (amended): if Announce returns without error, an identifier was drawn and a
handle created, the table maps that identifier to the new offer and every other key
to what it held before; the table holds exactly one more entry when the identifier
was not a key before the call, and as many entries as before when it was (the older
entry under that key is replaced). Connection, closed flag and stats are untouched. -/
theorem Announce_success_registers_offer (tc : TrackerClient) (infoHash : Hash20)
    (randRead : Except Error OfferID)
    (offerRes : Except Error (PeerConnection × DataChannel × SessionDescription))
    (data : Data) (wr : Option Error) (tc' : TrackerClient) (eff : List Effect)
    (h : Announce tc infoHash randRead offerRes data wr = .returned tc' none eff) :
    ∃ offerId pc dc offer,
      randRead = .ok offerId ∧ offerRes = .ok (pc, dc, offer)
      ∧ tc'.lookupOffer offerId = some
          { peerConnection := pc, dataChannel := dc, originalOffer := offer,
            infoHash := infoHash }
      ∧ (∀ k, k ≠ offerId → tc'.lookupOffer k = tc.lookupOffer k)
      ∧ (tc.lookupOffer offerId = none → tc'.numOffers = tc.numOffers + 1)
      ∧ (tc.lookupOffer offerId ≠ none → tc'.numOffers = tc.numOffers)
      ∧ tc'.wsConn = tc.wsConn ∧ tc'.closed = tc.closed ∧ tc'.stats = tc.stats := by
  obtain ⟨offerId, pc, dc, offer, c, h1, h2, -, -, h6, -⟩ :=
    Announce_returned_nil tc infoHash randRead offerRes data wr tc' eff h
  refine ⟨offerId, pc, dc, offer, h1, h2, ?_, ?_, ?_, ?_, ?_, ?_, ?_⟩
  · simp [h6, TrackerClient.lookupOffer, AList.lookup_insert]
  · intro k hk
    simp [h6, TrackerClient.lookupOffer, AList.lookup_insert_ne hk, offerMap_lookup]
  · intro hn
    have hmem : offerId ∉ tc.offerMap := by
      rw [← AList.lookup_eq_none, offerMap_lookup]; exact hn
    have hlen : tc'.numOffers = (tc.offerMap.insert offerId
        { peerConnection := pc, dataChannel := dc, originalOffer := offer,
          infoHash := infoHash }).entries.length := by rw [h6]; rfl
    rw [hlen, length_entries_insert, if_neg hmem, offerMap_entries]; rfl
  · intro hn
    have hmem : offerId ∈ tc.offerMap := by
      by_contra hc
      rw [← AList.lookup_eq_none, offerMap_lookup] at hc
      exact hn hc
    have hlen : tc'.numOffers = (tc.offerMap.insert offerId
        { peerConnection := pc, dataChannel := dc, originalOffer := offer,
          infoHash := infoHash }).entries.length := by rw [h6]; rfl
    rw [hlen, length_entries_insert, if_pos hmem, offerMap_entries]; rfl
  · simp [h6]
  · simp [h6]
  · simp [h6]

/-- The state `freshClient` after a successful announce that drew the identifier `b`. -/
def announcedClient : TrackerClient :=
  { freshClient with outboundOffers := some (AList.insert "b"
      { originalOffer := "new-sdp", peerConnection := 8, dataChannel := 80, infoHash := [9] } ∅) }

/-- C1 (witness): a connected client with a nil table announces with the fresh
identifier `b` and ends with one entry. -/
theorem Announce_success_registers_offer_witness :
    Announce freshClient [9] (.ok "b") (.ok (8, 80, "new-sdp")) [0] none
        = .returned announcedClient none
            [Effect.metricsAdd "outbound announces", Effect.wsWriteMessage 1 [0]]
    ∧ ∃ offerId pc dc offer,
      (Except.ok "b" : Except Error OfferID) = .ok offerId
      ∧ (Except.ok (8, 80, "new-sdp") :
          Except Error (PeerConnection × DataChannel × SessionDescription)) = .ok (pc, dc, offer)
      ∧ announcedClient.lookupOffer offerId = some
          { peerConnection := pc, dataChannel := dc, originalOffer := offer, infoHash := [9] }
      ∧ (∀ k, k ≠ offerId → announcedClient.lookupOffer k = freshClient.lookupOffer k)
      ∧ (freshClient.lookupOffer offerId = none
          → announcedClient.numOffers = freshClient.numOffers + 1)
      ∧ (freshClient.lookupOffer offerId ≠ none
          → announcedClient.numOffers = freshClient.numOffers)
      ∧ announcedClient.wsConn = freshClient.wsConn
      ∧ announcedClient.closed = freshClient.closed
      ∧ announcedClient.stats = freshClient.stats :=
  ⟨rfl, Announce_success_registers_offer freshClient [9] (.ok "b") (.ok (8, 80, "new-sdp"))
    [0] none announcedClient _ rfl⟩

/-! ## Writing on a closed client -/

/-- The state `connectedClient` after `Close`: closed, connection handle still set. -/
def closedConnectedClient : TrackerClient := (Close connectedClient).1

/-- C2 (counterexample): a client had a connection when it was closed. `writeMessage`
does not return the closed error: it attempts the write on the transport and returns
what the transport returns; `Announce` and `handleOffer` do likewise. -/
theorem writeMessage_closed_connected_counterexample :
    closedConnectedClient.closed = true
    ∧ writeMessage closedConnectedClient [0] (some (.lib 5))
        = (.returned (some (.lib 5)), [Effect.wsWriteMessage 1 [0]])
    ∧ writeMessage closedConnectedClient [0] none
        = (.returned none, [Effect.wsWriteMessage 1 [0]])
    ∧ Announce closedConnectedClient [9] (.ok "b") (.ok (8, 80, "new-sdp")) [0]
        (some (.lib 5))
        = .returned closedConnectedClient (some (.wrap "write AnnounceRequest" (.lib 5)))
            [Effect.metricsAdd "outbound announces", Effect.wsWriteMessage 1 [0],
             Effect.pcClose 8]
    ∧ handleOffer closedConnectedClient "remote-sdp" "x" [9] (.ok (8, "answer-sdp")) [0]
        (some (.lib 5))
        = .returned closedConnectedClient (some (.wrap "writing response" (.lib 5)))
            [Effect.wsWriteMessage 1 [0], Effect.pcClose 8] :=
  ⟨rfl, rfl, rfl, rfl, rfl⟩

/-- C2 (amended): on a closed client whose connection handle is nil, `writeMessage`
returns the closed error at once, neither waiting nor attempting a write, and so do
`Announce` and `handleOffer` once they reach the write (each closing its new handle
and leaving the state as it was). On a client whose connection handle is set, closed
or not, `writeMessage` does not consult the closed flag: it attempts the write on
that connection and returns the result of the transport. -/
theorem writeMessage_closed (tc : TrackerClient) (data : Data) (wr : Option Error) :
    (tc.closed = true → tc.wsConn = none →
      writeMessage tc data wr = (.returned (some .closed), [])
      ∧ (∀ infoHash offerId pc dc offer,
          Announce tc infoHash (.ok offerId) (.ok (pc, dc, offer)) data wr
            = .returned tc (some (.wrap "write AnnounceRequest" .closed))
                [Effect.metricsAdd "outbound announces", Effect.pcClose pc])
      ∧ (∀ offer offerId infoHash pc answer,
          handleOffer tc offer offerId infoHash (.ok (pc, answer)) data wr
            = .returned tc (some (.wrap "writing response" .closed)) [Effect.pcClose pc]))
    ∧ (∀ c, tc.wsConn = some c →
        writeMessage tc data wr = (.returned wr, [Effect.wsWriteMessage c data])) := by
  refine ⟨fun hclosed hc => ⟨?_, ?_, ?_⟩, fun c hc => ?_⟩
  · simp [writeMessage, hc, hclosed]
  · intro infoHash offerId pc dc offer
    simp [Announce, jsonMarshal, writeMessage, hc, hclosed]
  · intro offer offerId infoHash pc answer
    simp [handleOffer, jsonMarshal, writeMessage, hc, hclosed]
  · simp [writeMessage, hc]

/-- C2 (witness): the closed client that never had a connection returns the closed
error without a write; the open client `connectedClient` and the closed client
`closedConnectedClient`, whose handles are set, both attempt the write. -/
theorem writeMessage_closed_witness :
    closedUnconnectedClient.closed = true
    ∧ closedUnconnectedClient.wsConn = none
    ∧ writeMessage closedUnconnectedClient [0] none = (.returned (some .closed), [])
    ∧ connectedClient.closed = false
    ∧ connectedClient.wsConn = some 1
    ∧ writeMessage connectedClient [0] none = (.returned none, [Effect.wsWriteMessage 1 [0]])
    ∧ closedConnectedClient.closed = true
    ∧ closedConnectedClient.wsConn = some 1
    ∧ writeMessage closedConnectedClient [0] none
        = (.returned none, [Effect.wsWriteMessage 1 [0]]) :=
  ⟨rfl, rfl, ((writeMessage_closed closedUnconnectedClient [0] none).1 rfl rfl).1,
    rfl, rfl, (writeMessage_closed connectedClient [0] none).2 1 rfl,
    rfl, rfl, (writeMessage_closed closedConnectedClient [0] none).2 1 rfl⟩

/-! ## Answer correlation -/

/-- After a successful answer the answered id is no longer in the table. -/
theorem handleAnswer_success_lookup (tc : TrackerClient) (offerId : OfferID)
    (answer : SessionDescription) (offer : outboundOffer)
    (h : tc.lookupOffer offerId = some offer) :
    (handleAnswer tc offerId answer none).1.lookupOffer offerId = none := by
  unfold handleAnswer
  rw [h]
  unfold TrackerClient.lookupOffer at h ⊢
  cases hm : tc.outboundOffers with
  | none => simp [hm] at h
  | some m => simp [AList.lookup_erase]

/-- C3 (counterexample): the offer `a` is pending and applying the answer fails;
when `handleAnswer` returns, the entry for `a` is still in the table. -/
theorem handleAnswer_failure_keeps_entry_counterexample :
    connectedClient.lookupOffer "a" = some offer7
    ∧ (handleAnswer connectedClient "a" "answer-sdp" (some (.lib 3))).1.lookupOffer "a"
        = some offer7 := by
  decide

/-- C3 (amended): for an offer id present in the table, the entry is absent when
`handleAnswer` returns if applying the answer succeeds; if applying it fails the
state, the entry included, is exactly as before, and no re-announce is issued. -/
theorem handleAnswer_known_offer (tc : TrackerClient) (offerId : OfferID)
    (answer : SessionDescription) (offer : outboundOffer)
    (h : tc.lookupOffer offerId = some offer) :
    (handleAnswer tc offerId answer none).1.lookupOffer offerId = none
    ∧ ∀ err, handleAnswer tc offerId answer (some err)
        = (tc, [Effect.metricsAdd "outbound offers answered",
                Effect.setAnswer offer.peerConnection answer offerId,
                Effect.logPrintf "error using outbound offer answer: %v"]) := by
  constructor
  · exact handleAnswer_success_lookup tc offerId answer offer h
  · intro err
    simp [handleAnswer, h]

/-- C3 (witness): the pending offer `a` of `connectedClient`. -/
theorem handleAnswer_known_offer_witness :
    connectedClient.lookupOffer "a" = some offer7
    ∧ (handleAnswer connectedClient "a" "answer-sdp" none).1.lookupOffer "a" = none :=
  ⟨rfl, (handleAnswer_known_offer connectedClient "a" "answer-sdp" offer7 rfl).1⟩

/-- C7: for an offer id present in the table whose answer is applied successfully,
`handleAnswer` removes that entry (the table holds one entry fewer and no longer
has the id) and leaves every other entry, the connection, the closed flag and the
stats unchanged; a second `handleAnswer` for the same id, and `handleAnswer` for
any id that is not in the table, changes nothing and only logs: no answer is
applied to a handle, no completion callback is invoked, no re-announce is issued. -/
theorem handleAnswer_removes_once :
    (∀ (tc : TrackerClient) (offerId : OfferID) (answer : SessionDescription)
        (offer : outboundOffer), tc.lookupOffer offerId = some offer →
      (handleAnswer tc offerId answer none).1.lookupOffer offerId = none
      ∧ (∀ k, k ≠ offerId →
          (handleAnswer tc offerId answer none).1.lookupOffer k = tc.lookupOffer k)
      ∧ (handleAnswer tc offerId answer none).1.numOffers + 1 = tc.numOffers
      ∧ (handleAnswer tc offerId answer none).1.wsConn = tc.wsConn
      ∧ (handleAnswer tc offerId answer none).1.closed = tc.closed
      ∧ (handleAnswer tc offerId answer none).1.stats = tc.stats
      ∧ ∀ answer2 err2,
          handleAnswer (handleAnswer tc offerId answer none).1 offerId answer2 err2
            = ((handleAnswer tc offerId answer none).1,
                [Effect.logPrintf "could not find offer for id %q"]))
    ∧ (∀ (tc : TrackerClient) (offerId : OfferID) (answer : SessionDescription)
        (err : Option Error), tc.lookupOffer offerId = none →
      handleAnswer tc offerId answer err
        = (tc, [Effect.logPrintf "could not find offer for id %q"])) := by
  have hnone : ∀ (tc : TrackerClient) (offerId : OfferID) (answer : SessionDescription)
      (err : Option Error), tc.lookupOffer offerId = none →
      handleAnswer tc offerId answer err
        = (tc, [Effect.logPrintf "could not find offer for id %q"]) := by
    intro tc offerId answer err h
    simp [handleAnswer, h]
  refine ⟨?_, hnone⟩
  intro tc offerId answer offer h
  have hgone : (handleAnswer tc offerId answer none).1.lookupOffer offerId = none :=
    handleAnswer_success_lookup tc offerId answer offer h
  refine ⟨hgone, ?_, ?_, ?_, ?_, ?_, ?_⟩
  · intro k hk
    unfold handleAnswer
    rw [h]
    unfold TrackerClient.lookupOffer
    cases hm : tc.outboundOffers with
    | none => simp
    | some m => simp [AList.lookup_erase_ne hk]
  · unfold handleAnswer
    rw [h]
    unfold TrackerClient.lookupOffer at h
    unfold TrackerClient.numOffers TrackerClient.offers
    cases hm : tc.outboundOffers with
    | none => simp [hm] at h
    | some m =>
      rw [hm] at h
      have hmem : offerId ∈ m := by
        rw [← AList.lookup_isSome]; simp at h; simp [h]
      simpa using length_entries_erase m offerId hmem
  · simp [handleAnswer, h]
  · simp [handleAnswer, h]
  · simp [handleAnswer, h]
  · intro answer2 err2
    exact hnone _ offerId answer2 err2 hgone

/-- C7 (witness): the pending offer `a` of `connectedClient` is answered twice. -/
theorem handleAnswer_removes_once_witness :
    connectedClient.lookupOffer "a" = some offer7
    ∧ (handleAnswer connectedClient "a" "answer-sdp" none).1.numOffers + 1
        = connectedClient.numOffers
    ∧ freshClient.lookupOffer "a" = none
    ∧ handleAnswer freshClient "a" "answer-sdp" none
        = (freshClient, [Effect.logPrintf "could not find offer for id %q"]) :=
  ⟨rfl, (handleAnswer_removes_once.1 connectedClient "a" "answer-sdp" offer7 rfl).2.2.1,
    rfl, handleAnswer_removes_once.2 freshClient "a" "answer-sdp" none rfl⟩

/-! ## Close and the disconnect cleanup -/

theorem closedHandles_append (e1 e2 : List Effect) :
    closedHandles (e1 ++ e2) = closedHandles e1 ++ closedHandles e2 := by
  simp [closedHandles, List.filterMap_append]

theorem closedHandles_closeUnusedOffers (tc : TrackerClient) :
    closedHandles (closeUnusedOffers tc).2 = tc.handles := by
  unfold closeUnusedOffers closedHandles TrackerClient.handles
  simp only
  induction tc.offers with
  | nil => rfl
  | cons x xs ih => simp [List.filterMap_cons, ih]

/-- C4 (counterexample): `connectedClient` holds the pending offer `a` with handle 7;
after `Close` the table still has its entry and no peer connection handle was closed. -/
theorem Close_keeps_offers_counterexample :
    connectedClient.handles = [7]
    ∧ (Close connectedClient).1.numOffers = 1
    ∧ (Close connectedClient).1.lookupOffer "a" = some offer7
    ∧ closedHandles (Close connectedClient).2.2 = [] :=
  ⟨rfl, rfl, rfl, rfl⟩

/-- The state on which `doWebsocket` starts the read loop after dialing `c`. -/
def dialedClient (tc : TrackerClient) (c : WsConn) : TrackerClient :=
  { tc with stats := { tc.stats with Dials := int64 (tc.stats.Dials + 1) }, wsConn := some c }

/-- With a connection set `handleOffer` does not wait, and it leaves the state alone. -/
theorem handleOffer_connected (tc : TrackerClient) (c : WsConn) (hc : tc.wsConn = some c)
    (offer : SessionDescription) (offerId : OfferID) (infoHash : Hash20)
    (answering : Except Error (PeerConnection × SessionDescription)) (data : Data)
    (wr : Option Error) :
    ∃ err e, handleOffer tc offer offerId infoHash answering data wr = .returned tc err e := by
  unfold handleOffer jsonMarshal writeMessage
  rcases answering with aerr | ⟨pc, answer⟩
  · exact ⟨_, _, rfl⟩
  · rw [hc]
    cases wr with
    | none => exact ⟨_, _, rfl⟩
    | some werr => exact ⟨_, _, rfl⟩

theorem handleAnswer_wsConn (tc : TrackerClient) (offerId : OfferID)
    (answer : SessionDescription) (err : Option Error) :
    (handleAnswer tc offerId answer err).1.wsConn = tc.wsConn := by
  unfold handleAnswer
  cases tc.lookupOffer offerId with
  | none => rfl
  | some offer => cases err <;> rfl

/-- On a client with a connection set the read loop never waits: it returns with
the read error once the frames are used up. -/
theorem trackerReadLoop_connected (c : WsConn) (readErr : Error) :
    ∀ (frames : List Frame) (tc : TrackerClient), tc.wsConn = some c →
      ∃ tc2 e, trackerReadLoop frames tc readErr
          = .returned tc2 (some (.wrap "read message error" readErr)) e
        ∧ tc2.wsConn = some c := by
  intro frames
  induction frames with
  | nil => intro tc hc; exact ⟨tc, [], rfl, hc⟩
  | cons f fs ih =>
    intro tc hc
    unfold trackerReadLoop
    cases hm : f.message with
    | error merr =>
      obtain ⟨tc2, e, h1, h2⟩ := ih tc hc
      exact ⟨tc2, _, by rw [h1]; rfl, h2⟩
    | ok ar =>
      simp only
      cases ho : ar.Offer with
      | some offer =>
        simp only
        cases hi : f.ih with
        | error ierr =>
          obtain ⟨tc2, e, h1, h2⟩ := ih tc hc
          exact ⟨tc2, _, by rw [h1]; rfl, h2⟩
        | ok ih2 =>
          obtain ⟨oerr, oe, hoff⟩ :=
            handleOffer_connected tc c hc offer ar.OfferID ih2 f.answering f.data f.wr
          obtain ⟨tc2, e, h1, h2⟩ := ih tc hc
          exact ⟨tc2, _, by dsimp only; rw [hoff]; dsimp only; rw [h1]; rfl, h2⟩
      | none =>
        cases ha : ar.Answer with
        | some answer =>
          simp only
          obtain ⟨tc2, e, h1, h2⟩ :=
            ih (handleAnswer tc ar.OfferID answer f.setAnswerErr).1
              (by rw [handleAnswer_wsConn]; exact hc)
          exact ⟨tc2, _, by rw [h1]; rfl, h2⟩
        | none =>
          simp only
          exact ih tc hc

/-- A call of `doWebsocket` that dialed `c` returns: its read loop ends with the read
error in some state `tc2`, `closeUnusedOffers` then runs on `tc2`, and the connection
is closed (once in the critical section, once deferred). -/
theorem doWebsocket_dialed (tc : TrackerClient) (c : WsConn) (frames : List Frame)
    (readErr : Error) :
    ∃ tc2 e, trackerReadLoop frames (dialedClient tc c) readErr
        = .returned tc2 (some (.wrap "read message error" readErr)) e
      ∧ doWebsocket tc (.ok c) frames readErr
        = .returned (closeUnusedOffers tc2).1 (some (.wrap "read message error" readErr))
            ([Effect.metricsAdd "websocket dials", Effect.logPrintf "dialed tracker %q",
              Effect.condBroadcast] ++ e ++ (closeUnusedOffers tc2).2
              ++ [Effect.wsClose c, Effect.wsClose c]) := by
  obtain ⟨tc2, e, h1, -⟩ := trackerReadLoop_connected c readErr frames (dialedClient tc c) rfl
  refine ⟨tc2, e, h1, ?_⟩
  unfold dialedClient at h1
  unfold doWebsocket
  simp only [h1, disconnectCleanup, List.append_assoc, List.cons_append, List.nil_append,
    List.singleton_append]

/-- C4 (amended): after `Close` returns the closed flag is set and the transport
connection, when one is set, has been closed; `Close` itself closes no peer
connection handle and leaves the Offer Table as it was. The handles of the pending
offers are closed, one close per entry, and the table emptied by
`closeUnusedOffers`, which every `doWebsocket` call that dialed runs on the state
in which its read loop ended, before it returns. In particular a `doWebsocket` call
on the state `Close` left, whose read fails at once, closes exactly the handles that
were pending at `Close` and returns with a nil table. -/
theorem Close_then_cleanup (tc : TrackerClient) :
    (Close tc).1.closed = true
    ∧ (Close tc).1.outboundOffers = tc.outboundOffers
    ∧ closedHandles (Close tc).2.2 = []
    ∧ closedConns (Close tc).2.2 = tc.wsConn.toList
    ∧ closedHandles (closeUnusedOffers (Close tc).1).2 = tc.handles
    ∧ (closeUnusedOffers (Close tc).1).1.numOffers = 0
    ∧ (∀ (tc0 : TrackerClient) (c : WsConn) (frames : List Frame) (readErr : Error),
        ∃ tc2 e, trackerReadLoop frames (dialedClient tc0 c) readErr
            = .returned tc2 (some (.wrap "read message error" readErr)) e
          ∧ doWebsocket tc0 (.ok c) frames readErr
            = .returned (closeUnusedOffers tc2).1 (some (.wrap "read message error" readErr))
                ([Effect.metricsAdd "websocket dials", Effect.logPrintf "dialed tracker %q",
                  Effect.condBroadcast] ++ e ++ (closeUnusedOffers tc2).2
                  ++ [Effect.wsClose c, Effect.wsClose c]))
    ∧ (∀ (c : WsConn) (readErr : Error),
        doWebsocket (Close tc).1 (.ok c) [] readErr
          = .returned
              { outboundOffers := none, wsConn := some c, closed := true,
                stats := { tc.stats with Dials := int64 (tc.stats.Dials + 1) } }
              (some (.wrap "read message error" readErr))
              ([Effect.metricsAdd "websocket dials", Effect.logPrintf "dialed tracker %q",
                Effect.condBroadcast] ++ tc.handles.map Effect.pcClose
                ++ [Effect.wsClose c, Effect.wsClose c])) := by
  refine ⟨rfl, rfl, ?_, ?_, ?_, rfl, ?_, ?_⟩
  · unfold Close closedHandles
    cases tc.wsConn <;> rfl
  · unfold Close closedConns
    cases tc.wsConn <;> rfl
  · rw [closedHandles_closeUnusedOffers]; rfl
  · intro tc0 c frames readErr
    exact doWebsocket_dialed tc0 c frames readErr
  · intro c readErr
    simp [doWebsocket, trackerReadLoop, disconnectCleanup, closeUnusedOffers, Close,
      TrackerClient.handles, TrackerClient.offers, List.map_map, Function.comp_def]

/-- C6: when the write of `Announce` fails (the transport write returns an error, or
the client is closed with no connection), the freshly created handle is closed
exactly once, `Announce` returns the wrapped error, and the state, the Offer Table
included, is what it was before the call. -/
theorem Announce_write_failure (tc : TrackerClient) (infoHash : Hash20) (offerId : OfferID)
    (pc : PeerConnection) (dc : DataChannel) (offer : SessionDescription) (data : Data)
    (wr : Option Error) (err : Error) (e1 : List Effect)
    (h : writeMessage tc data wr = (.returned (some err), e1)) :
    Announce tc infoHash (.ok offerId) (.ok (pc, dc, offer)) data wr
      = .returned tc (some (.wrap "write AnnounceRequest" err))
          ([Effect.metricsAdd "outbound announces"] ++ e1 ++ [Effect.pcClose pc])
    ∧ closedHandles ([Effect.metricsAdd "outbound announces"] ++ e1 ++ [Effect.pcClose pc])
        = [pc] := by
  constructor
  · simp [Announce, jsonMarshal, h]
  · have he : closedHandles e1 = [] := by
      unfold writeMessage at h
      cases hc : tc.wsConn with
      | none =>
        rw [hc] at h
        by_cases hcl : tc.closed = true
        · simp [hcl] at h; rw [h.2]; rfl
        · simp [hcl] at h
      | some c =>
        rw [hc] at h
        simp only [Prod.mk.injEq] at h; rw [← h.2]; rfl
    rw [closedHandles_append, closedHandles_append, he]; rfl

/-- C6 (witness): the transport write of a connected client fails with error 5. -/
theorem Announce_write_failure_witness :
    writeMessage connectedClient [0] (some (.lib 5))
      = (.returned (some (.lib 5)), [Effect.wsWriteMessage 1 [0]])
    ∧ Announce connectedClient [9] (.ok "b") (.ok (8, 80, "new-sdp")) [0] (some (.lib 5))
      = .returned connectedClient (some (.wrap "write AnnounceRequest" (.lib 5)))
          ([Effect.metricsAdd "outbound announces"] ++ [Effect.wsWriteMessage 1 [0]]
            ++ [Effect.pcClose 8]) :=
  ⟨rfl, (Announce_write_failure connectedClient [9] "b" 8 80 "new-sdp" [0] (some (.lib 5))
    (.lib 5) [Effect.wsWriteMessage 1 [0]] rfl).1⟩

/-- C8: every `doWebsocket` call that dialed returns, and when its read loop has ended
with the read error, in the state `tc2`, the disconnect cleanup closes the handle of
every outbound offer outstanding in `tc2`, one close per entry of the table, and
leaves the Offer Table empty; a `handleAnswer` called afterwards with any offer id,
those pending before the disconnect included, takes the unmatched branch: it changes
nothing and only logs. -/
theorem doWebsocket_disconnect_clears_offers (tc : TrackerClient) (c : WsConn)
    (frames : List Frame) (readErr : Error) :
    ∃ tc2 e tc',
      trackerReadLoop frames (dialedClient tc c) readErr
        = .returned tc2 (some (.wrap "read message error" readErr)) e
      ∧ doWebsocket tc (.ok c) frames readErr
        = .returned tc' (some (.wrap "read message error" readErr))
            ([Effect.metricsAdd "websocket dials", Effect.logPrintf "dialed tracker %q",
              Effect.condBroadcast] ++ e ++ tc2.handles.map Effect.pcClose
              ++ [Effect.wsClose c, Effect.wsClose c])
      ∧ closedHandles (tc2.handles.map Effect.pcClose ++ [Effect.wsClose c, Effect.wsClose c])
          = tc2.handles
      ∧ (∀ pc, (tc2.handles.map Effect.pcClose).count (Effect.pcClose pc)
          = tc2.handles.count pc)
      ∧ tc'.outboundOffers = none
      ∧ tc'.numOffers = 0
      ∧ ∀ offerId answer err,
          handleAnswer tc' offerId answer err
            = (tc', [Effect.logPrintf "could not find offer for id %q"]) := by
  obtain ⟨tc2, e, h1, h2⟩ := doWebsocket_dialed tc c frames readErr
  have hmap : (closeUnusedOffers tc2).2 = tc2.handles.map Effect.pcClose := by
    simp [closeUnusedOffers, TrackerClient.handles, List.map_map, Function.comp_def]
  refine ⟨tc2, e, (closeUnusedOffers tc2).1, h1, ?_, ?_, ?_, rfl, rfl, ?_⟩
  · rw [h2, hmap]
  · rw [closedHandles_append, ← hmap, closedHandles_closeUnusedOffers]
    simp [closedHandles]
  · intro pc
    exact List.count_map_of_injective _ _ (fun a b hab => by cases hab; rfl) pc
  · intro offerId answer err
    rfl

end webtorrent

namespace possumTorrentStorage

/-- A listed `possum.Item`: its key and the value of `item.Stat.Size()`. -/
structure Item where
  Key : String
  Size : Int
deriving DecidableEq, Repr

/-- A `possum.Value`, given by the bytes it holds. -/
abbrev Value := List Nat

/-- Sorts by a precomputed key but swaps on another slice at the same time. -/
structure keySorter where
  orig : List Item
  keys : List Int
deriving DecidableEq, Repr

def keySorter.Len (o : keySorter) : Nat := o.keys.length

/-- The method `Less`; an index out of range panics in Go and yields `false` here. -/
def keySorter.Less (o : keySorter) (i j : Nat) : Bool :=
  match o.keys[i]?, o.keys[j]? with
  | some a, some b => decide (a < b)
  | _, _ => false

/-- The method `Swap`; an index out of range panics in Go and changes nothing here. -/
def keySorter.Swap (o : keySorter) (i j : Nat) : keySorter :=
  match o.keys[i]?, o.keys[j]?, o.orig[i]?, o.orig[j]? with
  | some ki, some kj, some oi, some oj =>
    { orig := (o.orig.set i oj).set j oi, keys := (o.keys.set i kj).set j ki }
  | _, _, _, _ => o

structure consecutiveValue where
  pv : Value
  offset : Int
  size : Int
deriving DecidableEq, Repr

/-- The loop of `ReadConsecutiveChunks` over the items paired with their keys, from
the running `offset`: the values appended to `consValues` and the final offset, or
the error of the first failing `pr.Add`. `add` is `pr.Add` and `pfx` the key
prefix of the call. -/
def selectValues (add : String → Except String Value) (pfx : String) :
    List (Item × Int) → Int → Except String (List consecutiveValue × Int)
  | [], offset => .ok ([], offset)
  | (item, itemOffset) :: rest, offset =>
    if itemOffset > offset then
      -- We can't provide a continuous read.
      .ok ([], offset)
    else if int64 (itemOffset + item.Size) ≤ offset then
      -- This item isn't needed
      selectValues add pfx rest offset
    else
      match add (pfx ++ item.Key) with
      | .error err => .error err
      | .ok v =>
        match selectValues add pfx rest
            (int64 (offset + int64 (item.Size - int64 (offset - itemOffset)))) with
        | .error err => .error err
        | .ok (vs, last) => .ok ({ pv := v, offset := itemOffset, size := item.Size } :: vs, last)

/-- The loop of `ReadConsecutiveChunks` that parses the key of every item, appending
to `keys`; it returns at the first key that does not parse, with
`fmt.Errorf("failed to parse offset %q: %w", offsetStr, err)`, the key being quoted
by `String.quote`. `parseInt` is `strconv.ParseInt(_, 10, 64)`. -/
def parseKeys (parseInt : String → Except String Int) : List Item → Except String (List Int)
  | [] => .ok []
  | item :: rest =>
    match parseInt item.Key with
    | .error err => .error ("failed to parse offset " ++ item.Key.quote ++ ": " ++ err)
    | .ok i =>
      match parseKeys parseInt rest with
      | .error err => .error err
      | .ok keys => .ok (i :: keys)

/-- The function `ReadConsecutiveChunks` up to `pr.Begin()`. `items` is the result of
`pr.ListItems`, `parseInt` is `strconv.ParseInt(_, 10, 64)` and `sortSort` is
`sort.Sort` on a `keySorter`. -/
def ReadConsecutiveChunks (parseInt : String → Except String Int)
    (sortSort : keySorter → keySorter) (add : String → Except String Value) (pfx : String)
    (items : List Item) : Except String (List consecutiveValue × Int) :=
  match parseKeys parseInt items with
  | .error err => .error err
  | .ok keys =>
    let sorted := sortSort { orig := items, keys := keys }
    selectValues add pfx (sorted.orig.zip sorted.keys) 0

/-- The largest `int64`. -/
def maxInt64 : Int := 2 ^ 63 - 1

/-- The read limit that `io.NewSectionReader(r, off, n)` computes. -/
def sectionLimit (off n : Int) : Int :=
  if off ≤ int64 (maxInt64 - n) then int64 (n + off) else maxInt64

/-- The bytes that `io.Copy(pw, io.NewSectionReader(pv, off, n))` copies: those of
`pv` from `off` up to the limit; a read at a negative offset is an error. -/
def copySection (pv : Value) (off n : Int) : Except String (List Nat) :=
  let limit := sectionLimit off n
  if off ≥ limit then .ok []
  else if off < 0 then .error "negative offset"
  else .ok ((pv.drop off.toNat).take (limit - off).toNat)

/-- One turn of the loop of `writeConsecutiveValues`. -/
structure SectionRead where
  /-- the value `v` of the turn -/
  value : consecutiveValue
  /-- the running offset `off` when the turn starts -/
  off : Int
  /-- the section start `valueOff` -/
  valueOff : Int
  /-- the section length `v.size-valueOff` -/
  length : Int
  /-- the number `n` of bytes copied -/
  n : Int
deriving DecidableEq, Repr

/-- What `writeConsecutiveValues` has done when it returns. -/
structure Written where
  /-- the turns of the loop, in order -/
  reads : List SectionRead
  /-- the bytes written to the pipe -/
  bytes : List Nat
  /-- the final value of `off` -/
  off : Int
  /-- the returned error -/
  err : Option String
deriving DecidableEq, Repr

/-- The loop of `writeConsecutiveValues` from the running offset `off`. -/
def writeLoop : List consecutiveValue → Int → Written
  | [], off => { reads := [], bytes := [], off := off, err := none }
  | v :: vs, off =>
    let valueOff := int64 (off - v.offset)
    match copySection v.pv valueOff (int64 (v.size - valueOff)) with
    | .error err => { reads := [], bytes := [], off := off, err := some err }
    | .ok copied =>
      let n : Int := copied.length
      let r := writeLoop vs (int64 (off + n))
      { r with
        reads := { value := v, off := off, valueOff := valueOff,
                   length := int64 (v.size - valueOff), n := n } :: r.reads
        bytes := copied ++ r.bytes }

/-- The method `writeConsecutiveValues`. -/
def writeConsecutiveValues (values : List consecutiveValue) : Written :=
  writeLoop values 0

/-- The values `vals` continue the byte range that ends at `start`, without gap, up
to `last`: each value starts at or before the current end, reaches beyond it, and
moves the end to its own end. -/
def Covers : Int → List consecutiveValue → Int → Prop
  | start, [], last => start = last
  | start, v :: vs, last =>
    0 ≤ start ∧ v.offset ≤ start ∧ start < v.offset + v.size
      ∧ -2 ^ 63 ≤ v.offset ∧ v.size < 2 ^ 63 ∧ v.offset + v.size < 2 ^ 63
      ∧ Covers (v.offset + v.size) vs last

/-- Sizes are non-negative `int64` values and keys are `int64` values. -/
def InRange (items : List (Item × Int)) : Prop :=
  ∀ p ∈ items, 0 ≤ p.1.Size ∧ p.1.Size < 2 ^ 63 ∧ -2 ^ 63 ≤ p.2 ∧ p.2 < 2 ^ 63

/-- Every value holds at least the number of bytes its item reported. -/
def ReadInFull (vals : List consecutiveValue) : Prop :=
  ∀ v ∈ vals, v.size ≤ (v.pv.length : Int)

theorem selectValues_covers (add : String → Except String Value) (pfx : String) :
    ∀ (items : List (Item × Int)) (offset : Int) (vals : List consecutiveValue) (last : Int),
      InRange items → 0 ≤ offset → offset < 2 ^ 63 →
      selectValues add pfx items offset = .ok (vals, last) →
      Covers offset vals last ∧ offset ≤ last ∧ last < 2 ^ 63 := by
  intro items
  induction items with
  | nil =>
    intro offset vals last _ h0 h1 h
    simp only [selectValues, Except.ok.injEq, Prod.mk.injEq] at h
    obtain ⟨rfl, rfl⟩ := h
    exact ⟨rfl, le_refl _, h1⟩
  | cons p rest ih =>
    obtain ⟨item, itemOffset⟩ := p
    intro offset vals last hr h0 h1 h
    have hp := hr (item, itemOffset) (List.mem_cons_self _ _)
    have hrest : InRange rest := fun q hq => hr q (List.mem_cons_of_mem _ hq)
    simp only at hp
    unfold selectValues at h
    split at h
    · simp only [Except.ok.injEq, Prod.mk.injEq] at h
      obtain ⟨rfl, rfl⟩ := h
      exact ⟨rfl, le_refl _, h1⟩
    · rename_i hgt
      split at h
      · exact ih offset vals last hrest h0 h1 h
      · rename_i hle
        have hnew : int64 (offset + int64 (item.Size - int64 (offset - itemOffset)))
            = itemOffset + item.Size ∧ itemOffset + item.Size < 2 ^ 63 := by
          unfold int64 at *; omega
        rw [hnew.1] at h
        have hsum : int64 (itemOffset + item.Size) = itemOffset + item.Size := by
          unfold int64; omega
        rw [hsum] at hle
        cases hadd : add (pfx ++ item.Key) with
        | error e => rw [hadd] at h; simp at h
        | ok v =>
          rw [hadd] at h
          simp only at h
          cases hrec : selectValues add pfx rest (itemOffset + item.Size) with
          | error e => rw [hrec] at h; simp at h
          | ok r =>
            obtain ⟨vs, l⟩ := r
            rw [hrec] at h
            simp only [Except.ok.injEq, Prod.mk.injEq] at h
            obtain ⟨rfl, rfl⟩ := h
            obtain ⟨hc, hle2, hlt⟩ :=
              ih (itemOffset + item.Size) vs l hrest (by omega) hnew.2 hrec
            exact ⟨⟨h0, by simp only; omega, by simp only; omega, hp.2.2.1, hp.2.1, hnew.2, hc⟩,
              by omega, hlt⟩

theorem copySection_full (pv : Value) (off n : Int) (h0 : 0 ≤ off) (hn : 0 < n)
    (hsum : off + n < 2 ^ 63) (hlen : off + n ≤ (pv.length : Int)) :
    ∃ copied, copySection pv off n = .ok copied ∧ (copied.length : Int) = n := by
  have h1 : int64 (maxInt64 - n) = 2 ^ 63 - 1 - n := by unfold int64 maxInt64; omega
  have h2 : int64 (n + off) = n + off := by unfold int64; omega
  have hlim : sectionLimit off n = n + off := by
    unfold sectionLimit
    rw [h1, h2, if_pos (by omega)]
  refine ⟨(pv.drop off.toNat).take (n + off - off).toNat, ?_, ?_⟩
  · unfold copySection
    simp only [hlim]
    rw [if_neg (by omega), if_neg (by omega)]
  · rw [List.length_take, List.length_drop]
    omega

/-- The write loop over a gap-free cover whose values are read in full. -/
theorem writeLoop_covers :
    ∀ (vals : List consecutiveValue) (start last : Int),
      Covers start vals last → ReadInFull vals →
      (writeLoop vals start).err = none
      ∧ (writeLoop vals start).off = last
      ∧ ((writeLoop vals start).bytes.length : Int) = last - start
      ∧ (writeLoop vals start).reads.map (fun s => s.value) = vals
      ∧ ∀ s ∈ (writeLoop vals start).reads,
          s.value.offset ≤ s.off ∧ s.off < s.value.offset + s.value.size
          ∧ s.valueOff = s.off - s.value.offset
          ∧ 0 ≤ s.valueOff ∧ s.valueOff < s.value.size
          ∧ s.length = s.value.size - s.valueOff ∧ 0 < s.length ∧ s.n = s.length := by
  intro vals
  induction vals with
  | nil =>
    intro start last hc _
    simp only [Covers] at hc
    subst hc
    simp [writeLoop]
  | cons v vs ih =>
    intro start last hc hfull
    obtain ⟨h0, hle, hlt, hoff, hsz, hend, hrest⟩ := hc
    have hv : v.size ≤ (v.pv.length : Int) := hfull v (List.mem_cons_self _ _)
    have hfull2 : ReadInFull vs := fun w hw => hfull w (List.mem_cons_of_mem _ hw)
    have hvo : int64 (start - v.offset) = start - v.offset := by unfold int64; omega
    have hln : int64 (v.size - (start - v.offset)) = v.size - (start - v.offset) := by
      unfold int64; omega
    obtain ⟨copied, hcopy, hcl⟩ :=
      copySection_full v.pv (start - v.offset) (v.size - (start - v.offset))
        (by omega) (by omega) (by omega) (by omega)
    have hnext : int64 (start + (copied.length : Int)) = v.offset + v.size := by
      rw [hcl]; unfold int64; omega
    obtain ⟨i1, i2, i3, i4, i5⟩ := ih (v.offset + v.size) last hrest hfull2
    unfold writeLoop
    simp only [hvo, hln, hcopy, hnext]
    refine ⟨i1, i2, ?_, ?_, ?_⟩
    · rw [List.length_append]; push_cast; omega
    · simp [i4]
    · intro s hs
      rcases List.mem_cons.mp hs with rfl | hs
      · simp only
        refine ⟨hle, hlt, trivial, by omega, by omega, trivial, by omega, hcl⟩
      · exact i5 s hs

/-- The selection loop returns a result whenever no `pr.Add` fails. -/
theorem selectValues_returns (add : String → Except String Value) (pfx : String)
    (hadd : ∀ key, ∃ v, add key = .ok v) :
    ∀ (items : List (Item × Int)) (offset : Int),
      ∃ r, selectValues add pfx items offset = .ok r := by
  intro items
  induction items with
  | nil => intro offset; exact ⟨_, rfl⟩
  | cons p rest ih =>
    obtain ⟨item, itemOffset⟩ := p
    intro offset
    unfold selectValues
    split
    · exact ⟨_, rfl⟩
    · split
      · exact ih offset
      · obtain ⟨v, hv⟩ := hadd (pfx ++ item.Key)
        obtain ⟨r, hr⟩ := ih (int64 (offset + int64 (item.Size - int64 (offset - itemOffset))))
        rw [hv]
        simp only [hr]
        exact ⟨_, rfl⟩

/-- Stored items used in the example: offsets 0, 2, 3, 7 and 20. -/
def exampleItems : List (Item × Int) :=
  [({ Key := "0", Size := 4 }, 0), ({ Key := "2", Size := 5 }, 2), ({ Key := "3", Size := 2 }, 3),
   ({ Key := "7", Size := 3 }, 7), ({ Key := "20", Size := 1 }, 20)]

/-- The stored values of the example, by full key. -/
def exampleAdd (key : String) : Except String Value :=
  if key = "p/0" then .ok [10, 11, 12, 13]
  else if key = "p/2" then .ok [12, 13, 14, 15, 16]
  else if key = "p/3" then .ok [13, 14]
  else if key = "p/7" then .ok [17, 18, 19]
  else if key = "p/20" then .ok [30]
  else .error "no such key"

/-- The values the loop selects from `exampleItems`. -/
def exampleValues : List consecutiveValue :=
  [{ pv := [10, 11, 12, 13], offset := 0, size := 4 },
   { pv := [12, 13, 14, 15, 16], offset := 2, size := 5 },
   { pv := [17, 18, 19], offset := 7, size := 3 }]

/-- C10: for stored items whose sizes are non-negative (in any order, so also in
the order sorted by offset), the values selected by the loop of
`ReadConsecutiveChunks` form a gap-free cover of the bytes from 0 to the final
offset `last` of the loop. When `writeConsecutiveValues` processes them, each read
in full, it returns no error, takes one turn per selected value, and at every turn
`v.offset <= off < v.offset + v.size`, the section start `off - v.offset` lies in
`[0, v.size)`, the section length is positive and is the number of bytes copied;
the number of bytes written and the final `off` equal `last`. -/
theorem selected_values_cover_range (add : String → Except String Value) (pfx : String)
    (items : List (Item × Int)) (vals : List consecutiveValue) (last : Int)
    (hrange : InRange items)
    (hsel : selectValues add pfx items 0 = .ok (vals, last))
    (hfull : ReadInFull vals) :
    Covers 0 vals last
    ∧ (writeConsecutiveValues vals).err = none
    ∧ (writeConsecutiveValues vals).reads.map (fun s => s.value) = vals
    ∧ (∀ s ∈ (writeConsecutiveValues vals).reads,
        s.value.offset ≤ s.off ∧ s.off < s.value.offset + s.value.size
        ∧ s.valueOff = s.off - s.value.offset
        ∧ 0 ≤ s.valueOff ∧ s.valueOff < s.value.size
        ∧ s.length = s.value.size - s.valueOff ∧ 0 < s.length ∧ s.n = s.length)
    ∧ ((writeConsecutiveValues vals).bytes.length : Int) = last
    ∧ (writeConsecutiveValues vals).off = last := by
  obtain ⟨hc, -, -⟩ :=
    selectValues_covers add pfx items 0 vals last hrange (le_refl _) (by norm_num) hsel
  obtain ⟨w1, w2, w3, w4, w5⟩ := writeLoop_covers vals 0 last hc hfull
  exact ⟨hc, w1, w4, w5, by simpa using w3, w2⟩

theorem exampleItems_inRange : InRange exampleItems := by
  intro p hp
  simp only [exampleItems, List.mem_cons, List.mem_singleton, List.not_mem_nil, or_false] at hp
  rcases hp with rfl | rfl | rfl | rfl | rfl <;> norm_num

theorem exampleValues_readInFull : ReadInFull exampleValues := by
  intro v hv
  simp only [exampleValues, List.mem_cons, List.mem_singleton, List.not_mem_nil, or_false] at hv
  rcases hv with rfl | rfl | rfl <;> norm_num

/-- C10 (witness): from the example items the loop selects the values at offsets 0, 2
and 7 and stops at offset 10; ten bytes are written. -/
theorem selected_values_cover_range_witness :
    selectValues exampleAdd "p/" exampleItems 0 = .ok (exampleValues, 10)
    ∧ (writeConsecutiveValues exampleValues).bytes = [10, 11, 12, 13, 14, 15, 16, 17, 18, 19]
    ∧ ((writeConsecutiveValues exampleValues).bytes.length : Int) = 10
    ∧ (writeConsecutiveValues exampleValues).off = 10 :=
  have h : selectValues exampleAdd "p/" exampleItems 0 = .ok (exampleValues, 10) := rfl
  have hw := selected_values_cover_range exampleAdd "p/" exampleItems exampleValues 10
    exampleItems_inRange h exampleValues_readInFull
  ⟨h, by decide, hw.2.2.2.2.1, hw.2.2.2.2.2⟩

end possumTorrentStorage
